import Mathlib

set_option autoImplicit false

/-!
Shallow embedding of `generate_feeds.py` (RSS generation for Rijeka municipal
sites) and proofs about its extraction and feed-building pipeline.

The HTML/CSS selector engine (BeautifulSoup) is out of scope per the design:
an element found by `select_one` is modelled as a record carrying its text
content and optional `href` attribute, and each candidate item element carries
an association list from selector strings to the sub-element that
`select_one` would return (first-match lookup).  A parsed page likewise maps
item selectors to the element list that `soup.select` would return.
Python truthiness notes used throughout: a BeautifulSoup tag is always truthy
(`Tag.__bool__` is constant true), so `if title_el:` tests for `None`; an
attribute value from `.get("href")` is `None` or a string, and only a
non-empty string is truthy; `urllib.parse.urljoin(base, url)` returns `base`
whenever `url` is falsy (`None` or the empty string).
-/

namespace RijekaRSS

/-- Whitespace test agreeing with Python `str.strip()` and the regex class
`\s` on the characters that occur here (space, tab, newline, carriage
return, vertical tab, form feed). -/
def isWs (c : Char) : Bool :=
  c = ' ' || c = '\t' || c = '\n' || c = '\r' || c = Char.ofNat 11 || c = Char.ofNat 12

/-- Left part of `str.strip()`. -/
def lstripWs (l : List Char) : List Char := l.dropWhile isWs

/-- Right part of `str.strip()`. -/
def rstripWs (l : List Char) : List Char := (l.reverse.dropWhile isWs).reverse

/-- Python `s.strip()` at the character-list level. -/
def stripWs (l : List Char) : List Char := rstripWs (lstripWs l)

/-- Python `re.sub(r"\s+", " ", s)`: every maximal run of whitespace is
replaced by a single space.  A whitespace character is dropped while the next
character is also whitespace, and the last character of a run becomes the
single output space. -/
def collapseWs : List Char → List Char
  | [] => []
  | [c] => if isWs c then [' '] else [c]
  | c :: d :: rest =>
    if isWs c then
      (if isWs d then collapseWs (d :: rest) else ' ' :: collapseWs (d :: rest))
    else c :: collapseWs (d :: rest)

/-- Body of `clean` from the source: `re.sub(r"\s+", " ", (s or "").strip())`,
at the character-list level (strip first, then collapse runs). -/
def cleanL (l : List Char) : List Char := collapseWs (stripWs l)

/-- The source's `clean(s)` whitespace normalizer. -/
def clean (s : String) : String := String.mk (cleanL s.data)

example : clean "  a \t b\n c  " = "a b c" := by rfl
example : clean "" = "" := by rfl
example : clean " \n\t " = "" := by rfl

/-- Adjacent characters are never both whitespace. -/
def noWsPair (x y : Char) : Prop := isWs x = false ∨ isWs y = false

theorem collapseWs_mem_ws (l : List Char) :
    ∀ c ∈ collapseWs l, isWs c = true → c = ' ' := by
  induction l with
  | nil => simp [collapseWs]
  | cons a t ih =>
    cases t with
    | nil =>
      intro c hc hw
      by_cases h : isWs a = true
      · simp [collapseWs, h] at hc; subst hc; rfl
      · simp [collapseWs, h] at hc; subst hc
        exact absurd hw h
    | cons b t' =>
      intro c hc hw
      by_cases ha : isWs a = true
      · by_cases hb : isWs b = true
        · rw [show collapseWs (a :: b :: t') = collapseWs (b :: t') by
            simp [collapseWs, ha, hb]] at hc
          exact ih c hc hw
        · have hb' : isWs b = false := by simpa using hb
          rw [show collapseWs (a :: b :: t') = ' ' :: collapseWs (b :: t') by
            simp [collapseWs, ha, hb']] at hc
          rcases List.mem_cons.mp hc with hc | hc
          · exact hc
          · exact ih c hc hw
      · have ha' : isWs a = false := by simpa using ha
        rw [show collapseWs (a :: b :: t') = a :: collapseWs (b :: t') by
          simp [collapseWs, ha']] at hc
        rcases List.mem_cons.mp hc with hc | hc
        · subst hc; rw [ha'] at hw; cases hw
        · exact ih c hc hw

theorem collapseWs_ne_nil (a : Char) (t : List Char) : collapseWs (a :: t) ≠ [] := by
  induction t generalizing a with
  | nil => by_cases h : isWs a = true <;> simp [collapseWs, h]
  | cons b t' ih =>
    by_cases ha : isWs a = true
    · by_cases hb : isWs b = true
      · rw [show collapseWs (a :: b :: t') = collapseWs (b :: t') by
          simp [collapseWs, ha, hb]]
        exact ih b
      · have hb' : isWs b = false := by simpa using hb
        simp [collapseWs, ha, hb']
    · have ha' : isWs a = false := by simpa using ha
      simp [collapseWs, ha']

theorem collapseWs_cons_not_ws (a : Char) (t : List Char) (h : isWs a = false) :
    collapseWs (a :: t) = a :: collapseWs t := by
  cases t with
  | nil => simp [collapseWs, h]
  | cons b t' => simp [collapseWs, h]

theorem collapseWs_chain (l : List Char) : List.Chain' noWsPair (collapseWs l) := by
  induction l with
  | nil => simp [collapseWs]
  | cons a t ih =>
    cases t with
    | nil =>
      by_cases h : isWs a = true <;> simp [collapseWs, h]
    | cons b t' =>
      by_cases ha : isWs a = true
      · by_cases hb : isWs b = true
        · rw [show collapseWs (a :: b :: t') = collapseWs (b :: t') by
            simp [collapseWs, ha, hb]]
          exact ih
        · have hb' : isWs b = false := by simpa using hb
          rw [show collapseWs (a :: b :: t') = ' ' :: collapseWs (b :: t') by
            simp [collapseWs, ha, hb']]
          rw [List.chain'_cons']
          refine ⟨?_, ih⟩
          intro y hy
          rw [collapseWs_cons_not_ws b t' hb'] at hy
          simp at hy
          right; rw [← hy]; exact hb'
      · have ha' : isWs a = false := by simpa using ha
        rw [collapseWs_cons_not_ws a (b :: t') ha']
        rw [List.chain'_cons']
        exact ⟨fun y _ => Or.inl ha', ih⟩

theorem collapseWs_getLast (l : List Char)
    (h : ∀ c, l.getLast? = some c → isWs c = false) :
    ∀ c, (collapseWs l).getLast? = some c → isWs c = false := by
  induction l with
  | nil => simp [collapseWs]
  | cons a t ih =>
    cases t with
    | nil =>
      have ha : isWs a = false := h a (by simp)
      intro c hc
      simp [collapseWs, ha] at hc
      subst hc; exact ha
    | cons b t' =>
      have h' : ∀ c, (b :: t').getLast? = some c → isWs c = false := by
        intro c hc
        exact h c (by rw [List.getLast?_cons_cons]; exact hc)
      have ihh := ih h'
      obtain ⟨x, X, hX⟩ : ∃ x X, collapseWs (b :: t') = x :: X := by
        cases hcb : collapseWs (b :: t') with
        | nil => exact absurd hcb (collapseWs_ne_nil b t')
        | cons x X => exact ⟨x, X, rfl⟩
      intro c hc
      by_cases ha : isWs a = true
      · by_cases hb : isWs b = true
        · rw [show collapseWs (a :: b :: t') = collapseWs (b :: t') by
            simp [collapseWs, ha, hb]] at hc
          exact ihh c hc
        · have hb' : isWs b = false := by simpa using hb
          rw [show collapseWs (a :: b :: t') = ' ' :: collapseWs (b :: t') by
            simp [collapseWs, ha, hb'], hX, List.getLast?_cons_cons] at hc
          exact ihh c (by rw [hX]; exact hc)
      · have ha' : isWs a = false := by simpa using ha
        rw [collapseWs_cons_not_ws a (b :: t') ha', hX, List.getLast?_cons_cons] at hc
        exact ihh c (by rw [hX]; exact hc)

theorem collapseWs_eq_self (l : List Char)
    (hchain : List.Chain' noWsPair l)
    (hsp : ∀ c ∈ l, isWs c = true → c = ' ')
    (hlast : ∀ c, l.getLast? = some c → isWs c = false) :
    collapseWs l = l := by
  induction l with
  | nil => simp [collapseWs]
  | cons a t ih =>
    cases t with
    | nil =>
      have ha : isWs a = false := hlast a (by simp)
      simp [collapseWs, ha]
    | cons b t' =>
      have hchain' : List.Chain' noWsPair (b :: t') := (List.chain'_cons'.mp hchain).2
      have hRab : noWsPair a b := (List.chain'_cons'.mp hchain).1 b (by simp)
      have hsp' : ∀ c ∈ b :: t', isWs c = true → c = ' ' :=
        fun c hc => hsp c (List.mem_cons_of_mem _ hc)
      have hlast' : ∀ c, (b :: t').getLast? = some c → isWs c = false := by
        intro c hc
        exact hlast c (by rw [List.getLast?_cons_cons]; exact hc)
      have iht := ih hchain' hsp' hlast'
      by_cases ha : isWs a = true
      · have haSp : a = ' ' := hsp a (by simp) ha
        have hb : isWs b = false := by
          rcases hRab with h | h
          · rw [ha] at h; cases h
          · exact h
        rw [show collapseWs (a :: b :: t') = ' ' :: collapseWs (b :: t') by
          simp [collapseWs, ha, hb]]
        rw [iht, haSp]
      · have ha' : isWs a = false := by simpa using ha
        rw [collapseWs_cons_not_ws a (b :: t') ha', iht]

theorem dropWhileWs_head (l : List Char) :
    ∀ c, (l.dropWhile isWs).head? = some c → isWs c = false := by
  induction l with
  | nil => simp
  | cons a t ih =>
    intro c hc
    rw [List.dropWhile_cons] at hc
    by_cases h : isWs a = true
    · rw [if_pos h] at hc
      exact ih c hc
    · have h' : isWs a = false := by simpa using h
      rw [if_neg (by simp [h'])] at hc
      simp at hc
      subst hc; exact h'

theorem rstripWs_decomp (l : List Char) :
    l = rstripWs l ++ (l.reverse.takeWhile isWs).reverse := by
  have h1 : l.reverse.takeWhile isWs ++ l.reverse.dropWhile isWs = l.reverse :=
    List.takeWhile_append_dropWhile isWs l.reverse
  have h2 := congrArg List.reverse h1
  rw [List.reverse_append, List.reverse_reverse] at h2
  exact h2.symm

theorem rstripWs_head (l : List Char) (c : Char) (h : (rstripWs l).head? = some c) :
    l.head? = some c := by
  cases hr : rstripWs l with
  | nil => rw [hr] at h; cases h
  | cons x X =>
    rw [hr] at h
    rw [rstripWs_decomp l, hr]
    simpa using h

theorem rstripWs_getLast (l : List Char) :
    ∀ c, (rstripWs l).getLast? = some c → isWs c = false := by
  intro c hc
  rw [rstripWs, List.getLast?_reverse] at hc
  exact dropWhileWs_head l.reverse c hc

theorem stripWs_head (l : List Char) :
    ∀ c, (stripWs l).head? = some c → isWs c = false := by
  intro c hc
  exact dropWhileWs_head l c (rstripWs_head (lstripWs l) c hc)

theorem stripWs_getLast (l : List Char) :
    ∀ c, (stripWs l).getLast? = some c → isWs c = false :=
  rstripWs_getLast (lstripWs l)

theorem cleanL_head (l : List Char) :
    ∀ c, (cleanL l).head? = some c → isWs c = false := by
  intro c hc
  rw [cleanL] at hc
  cases hs : stripWs l with
  | nil => rw [hs] at hc; cases hc
  | cons a t =>
    have ha : isWs a = false := stripWs_head l a (by rw [hs]; rfl)
    rw [hs, collapseWs_cons_not_ws a t ha] at hc
    simp at hc
    subst hc; exact ha

theorem cleanL_getLast (l : List Char) :
    ∀ c, (cleanL l).getLast? = some c → isWs c = false :=
  collapseWs_getLast (stripWs l) (stripWs_getLast l)

theorem dropWhileWs_eq_self (l : List Char)
    (h : ∀ c, l.head? = some c → isWs c = false) :
    l.dropWhile isWs = l := by
  cases l with
  | nil => rfl
  | cons a t =>
    have := h a rfl
    rw [List.dropWhile_cons, if_neg (by simp [this])]

theorem rstripWs_eq_self (l : List Char)
    (h : ∀ c, l.getLast? = some c → isWs c = false) :
    rstripWs l = l := by
  rw [rstripWs, dropWhileWs_eq_self l.reverse ?_, List.reverse_reverse]
  intro c hc
  rw [List.head?_reverse] at hc
  exact h c hc

theorem stripWs_cleanL (l : List Char) : stripWs (cleanL l) = cleanL l := by
  rw [stripWs, lstripWs, dropWhileWs_eq_self (cleanL l) (cleanL_head l)]
  exact rstripWs_eq_self (cleanL l) (cleanL_getLast l)

theorem cleanL_idem (l : List Char) : cleanL (cleanL l) = cleanL l := by
  rw [show cleanL (cleanL l) = collapseWs (stripWs (cleanL l)) from rfl, stripWs_cleanL]
  exact collapseWs_eq_self (cleanL l) (collapseWs_chain (stripWs l))
    (collapseWs_mem_ws (stripWs l)) (cleanL_getLast l)

/-- Python `re.findall(r"\d+", s)` at the character-list level: the maximal
runs of decimal digits, in order. -/
def digitRuns : List Char → List (List Char)
  | [] => []
  | c :: rest =>
    if c.isDigit then
      match rest with
      | [] => [[c]]
      | d :: _ =>
        if d.isDigit then
          match digitRuns rest with
          | [] => [[c]]
          | r :: rs => (c :: r) :: rs
        else [c] :: digitRuns rest
    else digitRuns rest

/-- Python `int(s)` on a string of decimal digits. -/
def natOfDigits (l : List Char) : Nat :=
  l.foldl (fun a c => 10 * a + (c.toNat - 48)) 0

/-- A `datetime` value in UTC.  `datetime.now(timezone.utc)` is modelled as a
parameter threaded into extraction; a date built from scraped digits has a
zero time-of-day, exactly as `datetime(y, m, d, tzinfo=timezone.utc)`. -/
structure Timestamp where
  year : Nat
  month : Nat
  day : Nat
  hour : Nat
  minute : Nat
  second : Nat
deriving DecidableEq, Repr

/-- Gregorian leap-year rule used by `datetime`. -/
def isLeap (y : Nat) : Bool := y % 4 == 0 && (y % 100 != 0 || y % 400 == 0)

/-- Length of a month as `datetime` validates it. -/
def daysInMonth (y m : Nat) : Nat :=
  if m = 2 then (if isLeap y then 29 else 28)
  else if m = 4 || m = 6 || m = 9 || m = 11 then 30
  else 31

/-- Argument validation performed by the `datetime(year, month, day)`
constructor: year in MINYEAR..MAXYEAR, month in 1..12, day in range for the
month. -/
def datetimeValid (y m d : Nat) : Bool :=
  decide (1 ≤ y) && decide (y ≤ 9999) && decide (1 ≤ m) && decide (m ≤ 12)
    && decide (1 ≤ d) && decide (d ≤ daysInMonth y m)

/-- Exceptions that can escape `scrape_items`: a failed GET (`requests`
exceptions), the two `RuntimeError`s the function raises itself, and the
`ValueError` that `datetime(y, m, d)` raises on out-of-range arguments. -/
inductive ScrapeErr where
  | transport
  | noContainer
  | noneParsable
  | valueError
deriving DecidableEq, Repr

/-- `datetime(y, m, d, tzinfo=timezone.utc)`: the timestamp, or `ValueError`
when an argument is out of range. -/
def datetimeUTC (y m d : Nat) : Except ScrapeErr Timestamp :=
  if datetimeValid y m d then .ok ⟨y, m, d, 0, 0, 0⟩ else .error .valueError

/-- An element as returned by `select_one`: its concatenated text
(`get_text()`) and its `href` attribute (`get("href")`, `None` when absent). -/
structure SubEl where
  text : String
  href : Option String
deriving DecidableEq, Repr

/-- A candidate item element.  `subs` records, per selector string, the
sub-element `it.select_one(sel)` would return (absent key = no match). -/
structure ItemEl where
  subs : List (String × SubEl)
deriving DecidableEq, Repr

/-- A parsed page.  `matchMap` records, per selector string, the element list
`soup.select(sel)` would return (absent key = no matches). -/
structure Soup where
  matchMap : List (String × List ItemEl)
deriving DecidableEq, Repr

/-- First-match association lookup. -/
def assocFind {α : Type} : List (String × α) → String → Option α
  | [], _ => none
  | (k, v) :: rest, s => if k = s then some v else assocFind rest s

/-- `it.select_one(sel)` on a candidate item element. -/
def selOne (it : ItemEl) (sel : String) : Option SubEl := assocFind it.subs sel

/-- `soup.select(sel)` on the page. -/
def soupSelect (soup : Soup) (sel : String) : List ItemEl :=
  (assocFind soup.matchMap sel).getD []

/-- The per-site configuration dataclass. -/
structure SiteConfig where
  slug : String
  title : String
  page_url : String
  item_selectors : List String
  title_selectors : List String
  link_selectors : List String
  date_selectors : List String
deriving DecidableEq, Repr

/-- Character-level prefix test (`startsWith`). -/
def hasPre : List Char → List Char → Bool
  | [], _ => true
  | _ :: _, [] => false
  | p :: ps, c :: cs => p == c && hasPre ps cs

/-- Split an absolute URL at its `://`, returning the scheme and the
remainder, or nothing when no `://` occurs. -/
def afterScheme : List Char → Option (List Char × List Char)
  | [] => none
  | c :: rest =>
    if hasPre [':', '/', '/'] (c :: rest) then some ([], rest.drop 2)
    else
      match afterScheme rest with
      | none => none
      | some (pre, post) => some (c :: pre, post)

/-- Scheme-plus-host prefix of an absolute URL. -/
def hostPartL (base : List Char) : List Char :=
  match afterScheme base with
  | some (sch, rest) => sch ++ [':', '/', '/'] ++ rest.takeWhile (fun c => c != '/')
  | none => base

/-- Base URL truncated after its final slash. -/
def dirPartL (base : List Char) : List Char :=
  (base.reverse.dropWhile (fun c => c != '/')).reverse

/-- Models `urllib.parse.urljoin(base, url)` on the URL shapes this pipeline
produces: an empty (falsy) url yields the base unchanged, an absolute url
wins, a scheme-relative or root-relative path replaces the base's path, and
a relative path is resolved against the base's directory. -/
def urljoinStr (base url : String) : String :=
  if url = "" then base
  else if hasPre "http://".data url.data || hasPre "https://".data url.data then url
  else if hasPre "//".data url.data then
    (match afterScheme base.data with
     | some (sch, _) => String.mk (sch ++ [':'] ++ url.data)
     | none => url)
  else if hasPre "/".data url.data then String.mk (hostPartL base.data ++ url.data)
  else String.mk (dirPartL base.data ++ url.data)

/-- `urljoin(base, el.get("href"))`: `get` returns `None` for a missing
attribute and `urljoin` returns the base for a falsy url, so a missing href
resolves to the base URL rather than raising. -/
def urljoinOpt (base : String) (href : Option String) : String :=
  match href with
  | none => base
  | some u => urljoinStr base u

/-- Python truthiness of `el.get("href")`: present and non-empty. -/
def hasHref (el : SubEl) : Bool :=
  match el.href with
  | some s => s != ""
  | none => false

/-- Truthiness of `link_el and link_el.get("href")` for an optional match. -/
def goodHref (r : Option SubEl) : Bool :=
  match r with
  | some el => hasHref el
  | none => false

/-- The title loop (source lines 106-110): `title_el` ends as the first
selector's match, `None` when no selector matches. -/
def findTitleEl (sels : List String) (it : ItemEl) : Option SubEl :=
  match sels with
  | [] => none
  | ts :: rest =>
    match selOne it ts with
    | some el => some el
    | none => findTitleEl rest it

/-- Body of the link loop (source lines 113-116): `cur` is the running value
of the `link_el` variable.  Each iteration assigns `it.select_one(ls)` and
breaks when that value is truthy with a truthy href; when the loop runs out
of selectors, `link_el` keeps the value assigned in the final iteration -
possibly an element with no href at all. -/
def linkLoop (it : ItemEl) : Option SubEl → List String → Option SubEl
  | cur, [] => cur
  | _, ls :: rest =>
    if goodHref (selOne it ls) then selOne it ls else linkLoop it (selOne it ls) rest

/-- The link loop with its initializer `link_el = None` (source line 112). -/
def findLinkEl (sels : List String) (it : ItemEl) : Option SubEl :=
  linkLoop it none sels

/-- The date-element search (source lines 126-127): first selector whose
`select_one` matches; the loop body always breaks after a match. -/
def findDateEl (sels : List String) (it : ItemEl) : Option SubEl :=
  match sels with
  | [] => none
  | ds :: rest =>
    match selOne it ds with
    | some el => some el
    | none => findDateEl rest it

/-- Source lines 129-134: digit groups of the cleaned text; with at least
three groups the first three become day, month, year of a `datetime` call
(which may raise `ValueError`), otherwise the default stands. -/
def parseDateText (raw : String) (dflt : Timestamp) : Except ScrapeErr Timestamp :=
  match (digitRuns raw.data).map natOfDigits with
  | d :: m :: y :: _ => datetimeUTC y m d
  | _ => .ok dflt

/-- Source lines 125-135: the item's timestamp, defaulting to `now`. -/
def extractDate (sels : List String) (it : ItemEl) (now : Timestamp) :
    Except ScrapeErr Timestamp :=
  match findDateEl sels it with
  | none => .ok now
  | some el => parseDateText (clean el.text) now

/-- One extracted item dict. -/
structure Item where
  title : String
  link : String
  date : Timestamp
deriving DecidableEq, Repr

/-- Source lines 106-137 for one candidate element: `ok none` when the item
is silently skipped, `ok (some _)` when appended, `error` when the date
parse raises. -/
def processItem (cfg : SiteConfig) (now : Timestamp) (it : ItemEl) :
    Except ScrapeErr (Option Item) :=
  match findTitleEl cfg.title_selectors it, findLinkEl cfg.link_selectors it with
  | some title_el, some link_el =>
    match extractDate cfg.date_selectors it now with
    | .error e => .error e
    | .ok dt => .ok (some ⟨clean title_el.text, urljoinOpt cfg.page_url link_el.href, dt⟩)
  | _, _ => .ok none

/-- The accumulation loop over the capped candidate list. -/
def scrapeLoop (cfg : SiteConfig) (now : Timestamp) : List ItemEl → Except ScrapeErr (List Item)
  | [] => .ok []
  | it :: rest =>
    match processItem cfg now it with
    | .error e => .error e
    | .ok none => scrapeLoop cfg now rest
    | .ok (some x) =>
      match scrapeLoop cfg now rest with
      | .error e => .error e
      | .ok xs => .ok (x :: xs)

/-- Container selection (source lines 94-99): first selector with a non-empty
`soup.select` result wins; `none` when every selector comes up empty. -/
def findContainer (sels : List String) (soup : Soup) : Option (List ItemEl) :=
  match sels with
  | [] => none
  | sel :: rest =>
    if (soupSelect soup sel).isEmpty then findContainer rest soup
    else some (soupSelect soup sel)

/-- Source lines 104-142 given a found container: iterate `container[:30]`
and fail with the "none parsable" error when nothing accumulated. -/
def extractFrom (cfg : SiteConfig) (now : Timestamp) (container : List ItemEl) :
    Except ScrapeErr (List Item) :=
  match scrapeLoop cfg now (container.take 30) with
  | .error e => .error e
  | .ok items => if items.isEmpty then .error .noneParsable else .ok items

/-- `scrape_items` (source lines 78-142).  The page fetch is the `page`
argument (`error` = the GET raised, propagated as a transport failure); the
existing-RSS probe steps only print and are omitted; `now` is the UTC clock
value at extraction. -/
def scrape_items (cfg : SiteConfig) (page : Except Unit Soup) (now : Timestamp) :
    Except ScrapeErr (List Item) :=
  match page with
  | .error _ => .error .transport
  | .ok soup =>
    match findContainer cfg.item_selectors soup with
    | none => .error .noContainer
    | some container => extractFrom cfg now container

/-- The message attached to each raised exception (source lines 102 and 140;
the transport and value errors carry library-defined messages). -/
def errMsg (cfg : SiteConfig) (e : ScrapeErr) : String :=
  match e with
  | .transport => "TransportError"
  | .noContainer =>
    "[" ++ cfg.slug ++ "] Ne nalazim elemente. Provjeri item_selectors za: " ++ cfg.page_url
  | .noneParsable =>
    "[" ++ cfg.slug ++ "] Našao sam kontejnere, ali nisam izvukao nijedan item (naslov/link)."
  | .valueError => "ValueError"

/-- One feed entry as configured by the loop body in `build_rss`. -/
structure Entry where
  id : String
  title : String
  link : String
  pubDate : Timestamp
deriving DecidableEq, Repr

/-- The feed-level state of the `FeedGenerator`. -/
structure Feed where
  title : String
  link : String
  description : String
  language : String
  entries : List Entry
deriving DecidableEq, Repr

/-- `fg.add_entry()` followed by setting the entry's fields.  feedgen's
`FeedGenerator.add_entry` defaults to `order='prepend'`: the new entry is
inserted at the front of the generator's entry list, so serialization lists
entries in reverse order of addition. -/
def add_entry (f : Feed) (e : Entry) : Feed := { f with entries := e :: f.entries }

/-- The fields the loop body assigns: id from the link, then title, link and
pubDate from the item. -/
def entryOfItem (it : Item) : Entry := ⟨it.link, it.title, it.link, it.date⟩

/-- Feed-level fields set in `build_rss` (source lines 148-152). -/
def initFeed (cfg : SiteConfig) : Feed :=
  ⟨cfg.title, cfg.page_url, "Generirani RSS za: " ++ cfg.page_url, "hr", []⟩

/-- The entry loop of `build_rss` (source lines 154-159). -/
def build_feed (cfg : SiteConfig) (items : List Item) : Feed :=
  items.foldl (fun f it => add_entry f (entryOfItem it)) (initFeed cfg)

/-- Rendering of a timestamp inside the serialized feed. -/
def tsStr (t : Timestamp) : String :=
  toString t.year ++ "-" ++ toString t.month ++ "-" ++ toString t.day ++ " "
    ++ toString t.hour ++ ":" ++ toString t.minute ++ ":" ++ toString t.second

/-- Serialization of one entry. -/
def entryXml (e : Entry) : String :=
  "<item><guid>" ++ e.id ++ "</guid><title>" ++ e.title ++ "</title><link>"
    ++ e.link ++ "</link><pubDate>" ++ tsStr e.pubDate ++ "</pubDate></item>"

/-- `fg.rss_str(pretty=True)`: the serializer is a black box per the design;
modelled as a well-defined rendering of the feed record. -/
def rss_str (f : Feed) : String :=
  "<rss version=\"2.0\"><channel><title>" ++ f.title ++ "</title><link>" ++ f.link
    ++ "</link><description>" ++ f.description ++ "</description><language>"
    ++ f.language ++ "</language>" ++ String.join (f.entries.map entryXml)
    ++ "</channel></rss>"

/-- Filesystem state: the set of directories and a map from file paths to
contents.  Paths are segment lists. -/
structure FS where
  dirs : List (List String)
  files : List (List String × String)
deriving DecidableEq, Repr

/-- All non-empty prefixes of a path, shortest first. -/
def prefixesOf : List String → List (List String)
  | [] => []
  | x :: rest => [x] :: (prefixesOf rest).map (fun p => x :: p)

/-- Idempotent directory creation (`exist_ok=True`). -/
def insertDir (dirs : List (List String)) (d : List String) : List (List String) :=
  if d ∈ dirs then dirs else dirs ++ [d]

/-- `out_dir.mkdir(parents=True, exist_ok=True)`. -/
def mkdirParents (fs : FS) (dir : List String) : FS :=
  { fs with dirs := (prefixesOf dir).foldl insertDir fs.dirs }

/-- Replace-or-append update of the file map. -/
def setFile : List (List String × String) → List String → String → List (List String × String)
  | [], p, c => [(p, c)]
  | (q, v) :: rest, p, c => if q = p then (p, c) :: rest else (q, v) :: setFile rest p c

/-- `out_path.write_bytes(...)`, overwriting any existing file. -/
def writeBytes (fs : FS) (p : List String) (content : String) : FS :=
  { fs with files := setFile fs.files p content }

/-- `build_rss` (source lines 145-164): scrape, build the feed, create the
output directory, write `<out_dir>/<slug>.xml`.  An exception from
`scrape_items` propagates before any filesystem effect. -/
def build_rss (cfg : SiteConfig) (page : Except Unit Soup) (now : Timestamp)
    (out_dir : List String) (fs : FS) : Except ScrapeErr (List String) × FS :=
  match scrape_items cfg page now with
  | .error e => (.error e, fs)
  | .ok items =>
    let fg := build_feed cfg items
    let fs1 := mkdirParents fs out_dir
    let out_path := out_dir ++ [cfg.slug ++ ".xml"]
    let fs2 := writeBytes fs1 out_path (rss_str fg)
    (.ok out_path, fs2)

theorem clean_idem_helper (s : String) : clean (clean s) = clean s :=
  congrArg String.mk (cleanL_idem s.data)

theorem linkLoop_skip (it : ItemEl) (tail : List String) :
    ∀ (pre : List String) (cur : Option SubEl),
      (∀ t ∈ pre, goodHref (selOne it t) = false) →
      ∃ cur', linkLoop it cur (pre ++ tail) = linkLoop it cur' tail := by
  intro pre
  induction pre with
  | nil => intro cur _; exact ⟨cur, rfl⟩
  | cons t pre' ih =>
    intro cur h
    have ht : goodHref (selOne it t) = false := h t (by simp)
    have hstep : linkLoop it cur ((t :: pre') ++ tail)
        = linkLoop it (selOne it t) (pre' ++ tail) := by
      simp [linkLoop, ht]
    rw [hstep]
    exact ih (selOne it t) (fun u hu => h u (List.mem_cons_of_mem _ hu))

theorem linkLoop_good (it : ItemEl) (s : String) (post : List String) (cur : Option SubEl)
    (h : goodHref (selOne it s) = true) :
    linkLoop it cur (s :: post) = selOne it s := by
  simp [linkLoop, h]

theorem linkLoop_bad_last (it : ItemEl) (ls : String) (cur : Option SubEl)
    (h : goodHref (selOne it ls) = false) :
    linkLoop it cur [ls] = selOne it ls := by
  simp [linkLoop, h]

theorem findContainer_none (soup : Soup) :
    ∀ sels : List String, (∀ t ∈ sels, soupSelect soup t = []) →
      findContainer sels soup = none := by
  intro sels
  induction sels with
  | nil => intro _; rfl
  | cons s rest ih =>
    intro h
    have hs : soupSelect soup s = [] := h s (by simp)
    simp only [findContainer, hs, List.isEmpty_nil, if_pos]
    exact ih (fun t ht => h t (List.mem_cons_of_mem _ ht))

theorem findContainer_first (soup : Soup) (s : String) (post : List String)
    (hs : soupSelect soup s ≠ []) :
    ∀ pre : List String, (∀ t ∈ pre, soupSelect soup t = []) →
      findContainer (pre ++ s :: post) soup = some (soupSelect soup s) := by
  intro pre
  induction pre with
  | nil =>
    intro _
    have hne : (soupSelect soup s).isEmpty = false := by
      cases hh : soupSelect soup s with
      | nil => exact absurd hh hs
      | cons a l => rfl
    simp [findContainer, hne]
  | cons t pre' ih =>
    intro h
    have ht : soupSelect soup t = [] := h t (by simp)
    rw [List.cons_append]
    simp only [findContainer, ht, List.isEmpty_nil, if_pos]
    exact ih (fun u hu => h u (List.mem_cons_of_mem _ hu))

theorem datetimeUTC_error (y m d : Nat) (e : ScrapeErr)
    (h : datetimeUTC y m d = .error e) : e = .valueError := by
  by_cases hv : datetimeValid y m d = true
  · rw [datetimeUTC, if_pos hv] at h; cases h
  · rw [datetimeUTC, if_neg hv] at h; injection h with h'; exact h'.symm

theorem parseDateText_error (raw : String) (dflt : Timestamp) (e : ScrapeErr)
    (h : parseDateText raw dflt = .error e) : e = .valueError := by
  unfold parseDateText at h
  split at h
  · exact datetimeUTC_error _ _ _ _ h
  · cases h

theorem extractDate_error (sels : List String) (it : ItemEl) (now : Timestamp) (e : ScrapeErr)
    (h : extractDate sels it now = .error e) : e = .valueError := by
  unfold extractDate at h
  split at h
  · cases h
  · exact parseDateText_error _ _ _ h

theorem processItem_error (cfg : SiteConfig) (now : Timestamp) (it : ItemEl) (e : ScrapeErr)
    (h : processItem cfg now it = .error e) : e = .valueError := by
  unfold processItem at h
  cases ht : findTitleEl cfg.title_selectors it with
  | none => rw [ht] at h; cases h
  | some tEl =>
    rw [ht] at h
    cases hl : findLinkEl cfg.link_selectors it with
    | none => rw [hl] at h; cases h
    | some lEl =>
      rw [hl] at h
      cases hd : extractDate cfg.date_selectors it now with
      | error e' =>
        rw [hd] at h
        injection h with h'
        rw [← h']
        exact extractDate_error _ _ _ _ hd
      | ok dt => rw [hd] at h; cases h

theorem scrapeLoop_error (cfg : SiteConfig) (now : Timestamp) :
    ∀ (l : List ItemEl) (e : ScrapeErr), scrapeLoop cfg now l = .error e →
      e = .valueError := by
  intro l
  induction l with
  | nil => intro e h; cases h
  | cons it rest ih =>
    intro e h
    simp only [scrapeLoop] at h
    cases hp : processItem cfg now it with
    | error e' =>
      rw [hp] at h
      injection h with h'
      rw [← h']
      exact processItem_error _ _ _ _ hp
    | ok o =>
      cases o with
      | none => rw [hp] at h; exact ih e h
      | some x =>
        rw [hp] at h
        cases hr : scrapeLoop cfg now rest with
        | error e' =>
          rw [hr] at h
          injection h with h'
          rw [← h']
          exact ih e' hr
        | ok xs => rw [hr] at h; cases h

theorem processItem_ok_some (cfg : SiteConfig) (now : Timestamp) (it : ItemEl) (x : Item)
    (h : processItem cfg now it = .ok (some x)) :
    ∃ tEl lEl dt,
      findTitleEl cfg.title_selectors it = some tEl ∧
      findLinkEl cfg.link_selectors it = some lEl ∧
      extractDate cfg.date_selectors it now = .ok dt ∧
      x = ⟨clean tEl.text, urljoinOpt cfg.page_url lEl.href, dt⟩ := by
  unfold processItem at h
  cases ht : findTitleEl cfg.title_selectors it with
  | none => rw [ht] at h; simp at h
  | some tEl =>
    rw [ht] at h
    cases hl : findLinkEl cfg.link_selectors it with
    | none => rw [hl] at h; simp at h
    | some lEl =>
      rw [hl] at h
      cases hd : extractDate cfg.date_selectors it now with
      | error e => rw [hd] at h; simp at h
      | ok dt =>
        rw [hd] at h
        injection h with h'
        injection h' with h''
        exact ⟨tEl, lEl, dt, rfl, rfl, rfl, h''.symm⟩

theorem scrapeLoop_ok_shape (cfg : SiteConfig) (now : Timestamp) :
    ∀ (l : List ItemEl) (items : List Item), scrapeLoop cfg now l = .ok items →
      ∀ x ∈ items, ∃ it : ItemEl, processItem cfg now it = .ok (some x) := by
  intro l
  induction l with
  | nil =>
    intro items h x hx
    injection h with h'
    rw [← h'] at hx
    cases hx
  | cons it rest ih =>
    intro items h x hx
    simp only [scrapeLoop] at h
    cases hp : processItem cfg now it with
    | error e => rw [hp] at h; cases h
    | ok o =>
      cases o with
      | none => rw [hp] at h; exact ih items h x hx
      | some x0 =>
        rw [hp] at h
        cases hr : scrapeLoop cfg now rest with
        | error e => rw [hr] at h; cases h
        | ok xs =>
          rw [hr] at h
          injection h with h'
          rw [← h'] at hx
          rcases List.mem_cons.mp hx with hx0 | hx0
          · rw [hx0]; exact ⟨it, hp⟩
          · exact ih xs hr x hx0

theorem scrapeLoop_length (cfg : SiteConfig) (now : Timestamp) :
    ∀ (l : List ItemEl) (items : List Item), scrapeLoop cfg now l = .ok items →
      items.length ≤ l.length := by
  intro l
  induction l with
  | nil =>
    intro items h
    injection h with h'
    rw [← h']
    exact Nat.le_refl 0
  | cons it rest ih =>
    intro items h
    simp only [scrapeLoop] at h
    cases hp : processItem cfg now it with
    | error e => rw [hp] at h; cases h
    | ok o =>
      cases o with
      | none =>
        rw [hp] at h
        exact Nat.le_trans (ih items h) (Nat.le_succ _)
      | some x0 =>
        rw [hp] at h
        cases hr : scrapeLoop cfg now rest with
        | error e => rw [hr] at h; cases h
        | ok xs =>
          rw [hr] at h
          injection h with h'
          rw [← h']
          exact Nat.succ_le_succ (ih xs hr)

theorem extractFrom_ok (cfg : SiteConfig) (now : Timestamp) (c : List ItemEl)
    (items : List Item) (h : extractFrom cfg now c = .ok items) :
    scrapeLoop cfg now (c.take 30) = .ok items := by
  unfold extractFrom at h
  cases hr : scrapeLoop cfg now (c.take 30) with
  | error e => rw [hr] at h; cases h
  | ok xs =>
    rw [hr] at h
    have h2 : (if xs.isEmpty = true then (Except.error ScrapeErr.noneParsable : Except ScrapeErr (List Item)) else Except.ok xs) = Except.ok items := h
    by_cases hxs : xs.isEmpty = true
    · rw [if_pos hxs] at h2; cases h2
    · rw [if_neg hxs] at h2
      injection h2 with h'
      rw [h']

theorem scrape_ok_shape (cfg : SiteConfig) (page : Except Unit Soup) (now : Timestamp)
    (items : List Item) (h : scrape_items cfg page now = .ok items) :
    ∀ x ∈ items, ∃ it : ItemEl, processItem cfg now it = .ok (some x) := by
  unfold scrape_items at h
  cases page with
  | error u => cases h
  | ok soup =>
    have h2 : (match findContainer cfg.item_selectors soup with
        | none => (Except.error ScrapeErr.noContainer : Except ScrapeErr (List Item))
        | some container => extractFrom cfg now container) = Except.ok items := h
    cases hc : findContainer cfg.item_selectors soup with
    | none => rw [hc] at h2; simp at h2
    | some c =>
      rw [hc] at h2
      exact scrapeLoop_ok_shape cfg now _ items (extractFrom_ok _ _ _ _ h2)

theorem findDateEl_append (it : ItemEl) :
    ∀ (sels post : List String) (el : SubEl),
      findDateEl sels it = some el → findDateEl (sels ++ post) it = some el := by
  intro sels
  induction sels with
  | nil => intro post el h; cases h
  | cons s rest ih =>
    intro post el h
    rw [List.cons_append]
    simp only [findDateEl] at h ⊢
    cases hs : selOne it s with
    | some e0 => rw [hs] at h; exact h
    | none => rw [hs] at h; exact ih post el h

theorem entries_foldl (items : List Item) :
    ∀ f : Feed,
      (items.foldl (fun f it => add_entry f (entryOfItem it)) f).entries
        = (items.map entryOfItem).reverse ++ f.entries := by
  induction items with
  | nil => intro f; simp
  | cons x xs ih =>
    intro f
    rw [List.foldl_cons, ih, List.map_cons, List.reverse_cons]
    simp [add_entry]

/-- A fixed extraction-time clock value used by the concrete test pages. -/
def now0 : Timestamp := ⟨2025, 6, 1, 12, 30, 0⟩

/-- Configuration used by the concrete test pages (shape of the registry
entries in `main`, with singleton selector chains where the test needs
them). -/
def cfgA : SiteConfig :=
  ⟨"s1", "T", "https://example.hr/", ["article"], ["h2"], ["a"], ["time"]⟩

/-- An item whose only link-selector match has no href attribute. -/
def itA : ItemEl := ⟨[("h2", ⟨"Hello", none⟩), ("a", ⟨"Hello", none⟩)]⟩

/-- A page whose single container element is `itA`. -/
def soupA : Soup := ⟨[("article", [itA])]⟩

example : scrape_items cfgA (.ok soupA) now0
    = .ok [⟨"Hello", "https://example.hr/", now0⟩] := by rfl
example : urljoinStr "https://example.hr/" "/n" = "https://example.hr/n" := by rfl
example : parseDateText "12.05.2024." now0 = .ok ⟨2024, 5, 12, 0, 0, 0⟩ := by rfl
example : parseDateText "TBA" now0 = .ok now0 := by rfl
example : parseDateText "2024 05 12" now0 = .error .valueError := by rfl

/-- An item whose date element's text has three digit groups forming an
out-of-range calendar date. -/
def itB : ItemEl :=
  ⟨[("h2", ⟨"News", some "/n"⟩), ("a", ⟨"News", some "/n"⟩), ("time", ⟨"2024 05 12", none⟩)]⟩

/-- A page whose single container element is `itB`. -/
def soupB : Soup := ⟨[("article", [itB])]⟩

/-- An item whose title element's text is pure whitespace. -/
def itC : ItemEl := ⟨[("h2", ⟨"   ", none⟩), ("a", ⟨"x", some "/x"⟩)]⟩

/-- A page whose single container element is `itC`. -/
def soupC : Soup := ⟨[("article", [itC])]⟩

/-- An item whose first link selector matches an href-less element and whose
second one matches an element with a href. -/
def itW : ItemEl := ⟨[("h2 a", ⟨"t", none⟩), ("a", ⟨"t", some "/p"⟩)]⟩

/-- A candidate element with no matching sub-elements at all. -/
def emptyItem : ItemEl := ⟨[]⟩

/-- A page whose container matches but whose only item parses nothing. -/
def soupE : Soup := ⟨[("article", [emptyItem])]⟩

/-- A page where the first item selector matches nothing and the second one
matches. -/
def soupW : Soup := ⟨[("article", []), (".post", [itA])]⟩

/-- A page matching no selector at all. -/
def soupN : Soup := ⟨[]⟩

/-- An item with two date-selector matches carrying different dates. -/
def itD : ItemEl := ⟨[("time", ⟨"12.05.2024.", none⟩), (".date", ⟨"01.01.1999", none⟩)]⟩

/-- An item whose date element's text has no digit groups. -/
def itT : ItemEl := ⟨[("time", ⟨"TBA", none⟩)]⟩

/-- A container of thirty unusable candidates followed by one usable one. -/
def cList : List ItemEl := List.replicate 30 emptyItem ++ [itA]

/-- The first thirty elements of `cList`. -/
def cShort : List ItemEl := List.replicate 30 emptyItem

/-- Two items sharing one link. -/
def itemsDup : List Item := [⟨"A", "L", now0⟩, ⟨"B", "L", now0⟩]

/-- Two items with distinct links, to observe entry order. -/
def itemsOrd : List Item := [⟨"A", "L1", now0⟩, ⟨"B", "L2", now0⟩]

/-- A filesystem already holding an older output file. -/
def fs0 : FS := ⟨[["docs"]], [(["docs", "rss", "s1.xml"], "old")]⟩

/-- C1 counterexample: on a page whose only item's single link selector
matches an element with no href attribute, the claim predicts the item is
dropped; instead `scrape_items` keeps it, with the link resolved to the page
URL (`urljoin(base, None)` returns the base). -/
theorem c1_counterexample :
    goodHref (selOne itA "a") = false
    ∧ scrape_items cfgA (.ok soupA) now0
        = .ok [⟨"Hello", "https://example.hr/", now0⟩] :=
  ⟨rfl, rfl⟩

/-- C1 (amended): a link selector whose match lacks a truthy href is indeed
skipped in favor of the next selector, and the first selector with a truthy
href wins; but when no selector yields one, `link_el` ends as the last
selector's raw match, so the item is dropped only when the last selector
matches nothing - a last-selector match without href is kept and its link
resolves to the page URL. -/
theorem c1_link_href_chain :
    (∀ (it : ItemEl) (pre post : List String) (s : String),
        (∀ t ∈ pre, goodHref (selOne it t) = false) →
        goodHref (selOne it s) = true →
        findLinkEl (pre ++ s :: post) it = selOne it s)
    ∧ (∀ (it : ItemEl) (sels : List String) (ls : String),
        (∀ t ∈ sels ++ [ls], goodHref (selOne it t) = false) →
        findLinkEl (sels ++ [ls]) it = selOne it ls)
    ∧ (∀ (cfg : SiteConfig) (now : Timestamp) (it : ItemEl) (tEl lEl : SubEl),
        findTitleEl cfg.title_selectors it = some tEl →
        findLinkEl cfg.link_selectors it = some lEl →
        lEl.href = none →
        processItem cfg now it =
          (extractDate cfg.date_selectors it now).map
            (fun dt => some (Item.mk (clean tEl.text) cfg.page_url dt))) := by
  refine ⟨?_, ?_, ?_⟩
  · intro it pre post s hpre hs
    obtain ⟨cur', hcur⟩ := linkLoop_skip it (s :: post) pre none hpre
    rw [findLinkEl, hcur]
    exact linkLoop_good it s post cur' hs
  · intro it sels ls hall
    obtain ⟨cur', hcur⟩ := linkLoop_skip it [ls] sels none
      (fun t ht => hall t (List.mem_append_left _ ht))
    rw [findLinkEl, hcur]
    exact linkLoop_bad_last it ls cur' (hall ls (by simp))
  · intro cfg now it tEl lEl ht hl hhref
    unfold processItem
    rw [ht, hl]
    cases hd : extractDate cfg.date_selectors it now with
    | error e => simp [Except.map]
    | ok dt => simp [Except.map, urljoinOpt, hhref]

/-- Witness for the amended C1 statement at concrete inputs. -/
theorem c1_link_href_chain_witness :
    findLinkEl (["h2 a"] ++ "a" :: []) itW = selOne itW "a"
    ∧ processItem cfgA now0 itA =
        (extractDate cfgA.date_selectors itA now0).map
          (fun dt => some (Item.mk (clean (SubEl.mk "Hello" none).text) cfgA.page_url dt)) :=
  ⟨c1_link_href_chain.1 itW ["h2 a"] [] "a" (by decide) (by decide),
   c1_link_href_chain.2.2 cfgA now0 itA (SubEl.mk "Hello" none) (SubEl.mk "Hello" none)
     rfl rfl rfl⟩

/-- C2: the claim says date extraction never raises, but on a matched date
text of "2024 05 12" the first three digit groups become day 2024, month 5,
year 12, and `datetime(12, 5, 2024)` raises `ValueError`, aborting
`scrape_items`; a month group of 13 likewise raises. -/
theorem c2_date_exception_eval :
    scrape_items cfgA (.ok soupB) now0 = .error .valueError
    ∧ (digitRuns (clean "2024 05 12").data).map natOfDigits = [2024, 5, 12]
    ∧ parseDateText "01.13.2024" now0 = .error .valueError :=
  ⟨by rfl, by rfl, by rfl⟩

/-- C3 counterexample: an item whose matched title element's text is pure
whitespace is kept, with the empty string as its title - the returned
sequence is not free of empty titles. -/
theorem c3_counterexample :
    scrape_items cfgA (.ok soupC) now0 = .ok [⟨"", "https://example.hr/x", now0⟩]
    ∧ (Item.mk "" "https://example.hr/x" now0).title = "" :=
  ⟨rfl, rfl⟩

/-- C3 (amended): every item in a successful `scrape_items` result has a
whitespace-normalized title (a fixed point of `clean`), which may be empty. -/
theorem c3_title_normalized :
    ∀ (cfg : SiteConfig) (page : Except Unit Soup) (now : Timestamp) (items : List Item),
      scrape_items cfg page now = .ok items →
      ∀ x ∈ items, clean x.title = x.title := by
  intro cfg page now items h x hx
  obtain ⟨it, hit⟩ := scrape_ok_shape cfg page now items h x hx
  obtain ⟨tEl, lEl, dt, _, _, _, hx'⟩ := processItem_ok_some cfg now it x hit
  rw [hx']
  exact clean_idem_helper tEl.text

/-- Witness for the amended C3 statement at a concrete page. -/
theorem c3_title_normalized_witness :
    clean (Item.mk "Hello" "https://example.hr/" now0).title
      = (Item.mk "Hello" "https://example.hr/" now0).title :=
  c3_title_normalized cfgA (.ok soupA) now0 [⟨"Hello", "https://example.hr/", now0⟩] rfl
    (Item.mk "Hello" "https://example.hr/" now0) (by simp)

/-- C4: container selection is first-match-wins - the first item selector
with a non-empty match set determines the container regardless of what later
selectors would match - and when every selector matches nothing,
`scrape_items` fails with the no-container error. -/
theorem c4_container_first_match :
    (∀ (soup : Soup) (pre post : List String) (s : String),
        (∀ t ∈ pre, soupSelect soup t = []) →
        soupSelect soup s ≠ [] →
        findContainer (pre ++ s :: post) soup = some (soupSelect soup s))
    ∧ (∀ (cfg : SiteConfig) (soup : Soup) (now : Timestamp),
        (∀ t ∈ cfg.item_selectors, soupSelect soup t = []) →
        scrape_items cfg (.ok soup) now = .error .noContainer) := by
  constructor
  · intro soup pre post s hpre hs
    exact findContainer_first soup s post hs pre hpre
  · intro cfg soup now h
    have h0 : scrape_items cfg (.ok soup) now
        = (match findContainer cfg.item_selectors soup with
           | none => .error .noContainer
           | some container => extractFrom cfg now container) := rfl
    rw [h0, findContainer_none soup cfg.item_selectors h]

/-- Witness for C4 at concrete pages. -/
theorem c4_container_first_match_witness :
    findContainer (["article"] ++ ".post" :: [".news-item"]) soupW
      = some (soupSelect soupW ".post")
    ∧ scrape_items cfgA (.ok soupN) now0 = .error .noContainer :=
  ⟨c4_container_first_match.1 soupW ["article"] [".news-item"] ".post" (by decide) (by decide),
   c4_container_first_match.2 cfgA soupN now0 (by decide)⟩

/-- C5: the none-parsable error occurs exactly when a container was found
but the per-item loop accumulated nothing, and it is distinguishable from
the no-container error both by kind and by message. -/
theorem c5_none_parsable_iff :
    (∀ (cfg : SiteConfig) (soup : Soup) (now : Timestamp),
        scrape_items cfg (.ok soup) now = .error .noneParsable ↔
          ∃ c, findContainer cfg.item_selectors soup = some c ∧
            scrapeLoop cfg now (c.take 30) = .ok [])
    ∧ ScrapeErr.noneParsable ≠ ScrapeErr.noContainer
    ∧ (∀ cfg : SiteConfig, errMsg cfg .noneParsable ≠ errMsg cfg .noContainer) := by
  refine ⟨?_, by decide, ?_⟩
  · intro cfg soup now
    constructor
    · intro h
      have h0 : (match findContainer cfg.item_selectors soup with
          | none => (Except.error ScrapeErr.noContainer : Except ScrapeErr (List Item))
          | some container => extractFrom cfg now container)
          = .error .noneParsable := h
      cases hc : findContainer cfg.item_selectors soup with
      | none =>
        rw [hc] at h0
        injection h0 with h'
        cases h'
      | some c =>
        rw [hc] at h0
        have h2 : extractFrom cfg now c = .error .noneParsable := h0
        refine ⟨c, rfl, ?_⟩
        unfold extractFrom at h2
        cases hr : scrapeLoop cfg now (c.take 30) with
        | error e =>
          rw [hr] at h2
          have h3 : (Except.error e : Except ScrapeErr (List Item))
              = .error .noneParsable := h2
          injection h3 with h'
          have hv := scrapeLoop_error cfg now (c.take 30) e hr
          rw [hv] at h'
          cases h'
        | ok xs =>
          rw [hr] at h2
          have h3 : (if xs.isEmpty = true
                then (Except.error ScrapeErr.noneParsable : Except ScrapeErr (List Item))
                else Except.ok xs)
              = .error .noneParsable := h2
          by_cases hxs : xs.isEmpty = true
          · rw [List.isEmpty_iff.mp hxs]
          · rw [if_neg hxs] at h3
            cases h3
    · rintro ⟨c, hc, hloop⟩
      have h0 : scrape_items cfg (.ok soup) now
          = (match findContainer cfg.item_selectors soup with
             | none => .error .noContainer
             | some container => extractFrom cfg now container) := rfl
      rw [h0, hc]
      show extractFrom cfg now c = .error .noneParsable
      unfold extractFrom
      rw [hloop]
      rfl
  · intro cfg h
    have hd := congrArg String.data h
    simp only [errMsg, String.data_append, List.append_assoc] at hd
    have h1 := List.append_cancel_left hd
    have h2 := List.append_cancel_left h1
    have h3 := congrArg (fun l : List Char => l[3]?) h2
    simp only [] at h3
    rw [List.getElem?_append_left (by decide)] at h3
    have hA : ("] Našao sam kontejnere, ali nisam izvukao nijedan item (naslov/link)." : String).data[3]? = some 'a' := by decide
    have hB : ("] Ne nalazim elemente. Provjeri item_selectors za: " : String).data[3]? = some 'e' := by decide
    rw [hA, hB] at h3
    injection h3 with h4
    cases h4

/-- Witness for C5: a page whose container matches but whose single item
lacks title and link raises the none-parsable variant. -/
theorem c5_none_parsable_iff_witness :
    scrape_items cfgA (.ok soupE) now0 = .error .noneParsable :=
  (c5_none_parsable_iff.1 cfgA soupE now0).mpr ⟨[emptyItem], rfl, rfl⟩

/-- C6: the 30-element cap applies to the candidate container list - the
result depends only on the first 30 candidates, a successful result never
holds more than 30 items, and the whole tail of `scrape_items` is determined
by the found container. -/
theorem c6_cap_candidates :
    (∀ (cfg : SiteConfig) (now : Timestamp) (c c' : List ItemEl),
        c.take 30 = c'.take 30 →
        extractFrom cfg now c = extractFrom cfg now c')
    ∧ (∀ (cfg : SiteConfig) (now : Timestamp) (c : List ItemEl) (items : List Item),
        extractFrom cfg now c = .ok items → items.length ≤ 30)
    ∧ (∀ (cfg : SiteConfig) (soup : Soup) (now : Timestamp) (c : List ItemEl),
        findContainer cfg.item_selectors soup = some c →
        scrape_items cfg (.ok soup) now = extractFrom cfg now c) := by
  refine ⟨?_, ?_, ?_⟩
  · intro cfg now c c' h
    unfold extractFrom
    rw [h]
  · intro cfg now c items h
    have hlen := scrapeLoop_length cfg now (c.take 30) items (extractFrom_ok cfg now c items h)
    exact Nat.le_trans hlen (List.length_take_le 30 c)
  · intro cfg soup now c hc
    have h0 : scrape_items cfg (.ok soup) now
        = (match findContainer cfg.item_selectors soup with
           | none => .error .noContainer
           | some container => extractFrom cfg now container) := rfl
    rw [h0, hc]

/-- Witness for C6: with thirty unusable candidates ahead of a usable one,
the usable element beyond the cap never contributes. -/
theorem c6_cap_candidates_witness :
    extractFrom cfgA now0 cList = extractFrom cfgA now0 cShort
    ∧ ([Item.mk "Hello" "https://example.hr/" now0]).length ≤ 30
    ∧ scrape_items cfgA (.ok soupA) now0 = extractFrom cfgA now0 [itA] :=
  ⟨c6_cap_candidates.1 cfgA now0 cList cShort (by decide),
   c6_cap_candidates.2.1 cfgA now0 [itA] [Item.mk "Hello" "https://example.hr/" now0] rfl,
   c6_cap_candidates.2.2 cfgA soupA now0 [itA] rfl⟩

/-- C7: once a date selector matches a sub-element, later selectors are
never consulted; a match whose text has fewer than three digit groups leaves
the default clock value; with at least three groups the first three are read
as day, month, year of the constructed UTC timestamp. -/
theorem c7_date_short_circuit :
    (∀ (sels post : List String) (it : ItemEl) (now : Timestamp),
        (findDateEl sels it).isSome = true →
        extractDate (sels ++ post) it now = extractDate sels it now)
    ∧ (∀ (sels : List String) (it : ItemEl) (now : Timestamp) (el : SubEl),
        findDateEl sels it = some el →
        (digitRuns (clean el.text).data).length < 3 →
        extractDate sels it now = .ok now)
    ∧ (∀ (sels : List String) (it : ItemEl) (now : Timestamp) (el : SubEl)
        (d m y : Nat) (rest : List Nat),
        findDateEl sels it = some el →
        (digitRuns (clean el.text).data).map natOfDigits = d :: m :: y :: rest →
        datetimeValid y m d = true →
        extractDate sels it now = .ok ⟨y, m, d, 0, 0, 0⟩) := by
  refine ⟨?_, ?_, ?_⟩
  · intro sels post it now hsome
    cases hel : findDateEl sels it with
    | none => rw [hel] at hsome; cases hsome
    | some el =>
      unfold extractDate
      rw [hel, findDateEl_append it sels post el hel]
  · intro sels it now el hel hlt
    unfold extractDate
    rw [hel]
    show parseDateText (clean el.text) now = .ok now
    unfold parseDateText
    cases h1 : (digitRuns (clean el.text).data).map natOfDigits with
    | nil => rfl
    | cons d t1 =>
      cases t1 with
      | nil => rfl
      | cons m t2 =>
        cases t2 with
        | nil => rfl
        | cons y t3 =>
          exfalso
          have hlen := congrArg List.length h1
          simp only [List.length_map, List.length_cons] at hlen
          omega
  · intro sels it now el d m y rest hel hmap hvalid
    unfold extractDate
    rw [hel]
    show parseDateText (clean el.text) now = .ok ⟨y, m, d, 0, 0, 0⟩
    unfold parseDateText
    rw [hmap]
    show datetimeUTC y m d = .ok ⟨y, m, d, 0, 0, 0⟩
    rw [datetimeUTC, if_pos hvalid]

/-- Witness for C7 at concrete items. -/
theorem c7_date_short_circuit_witness :
    extractDate (["time"] ++ [".date"]) itD now0 = extractDate ["time"] itD now0
    ∧ extractDate ["time"] itT now0 = .ok now0
    ∧ extractDate ["time"] itD now0 = .ok ⟨2024, 5, 12, 0, 0, 0⟩ :=
  ⟨c7_date_short_circuit.1 ["time"] [".date"] itD now0 (by decide),
   c7_date_short_circuit.2.1 ["time"] itT now0 (SubEl.mk "TBA" none) rfl (by decide),
   c7_date_short_circuit.2.2 ["time"] itD now0 (SubEl.mk "12.05.2024." none) 12 5 2024 []
     rfl rfl (by decide)⟩

/-- C8 counterexample: with two extracted items carrying distinct links, the
feed's entry list is the extraction sequence reversed - `add_entry` inserts
at the front (feedgen default `order='prepend'`) - so the entries are not in
the same order as the extracted sequence. -/
theorem c8_counterexample :
    (build_feed cfgA itemsOrd).entries
      = [entryOfItem ⟨"B", "L2", now0⟩, entryOfItem ⟨"A", "L1", now0⟩]
    ∧ (build_feed cfgA itemsOrd).entries ≠ itemsOrd.map entryOfItem :=
  ⟨by rfl, by decide⟩

/-- C8 (amended): the feed holds exactly one entry per extracted item, each
entry's identifier being that item's link, with duplicate links yielding
duplicate identifiers and nothing deduplicated; but the entries appear in
reverse extraction order, since each `add_entry` call prepends. -/
theorem c8_feed_entries :
    ∀ (cfg : SiteConfig) (items : List Item),
      (build_feed cfg items).entries = (items.map entryOfItem).reverse
      ∧ (build_feed cfg items).entries.length = items.length
      ∧ ∀ i : Nat,
          Option.map Entry.id ((build_feed cfg items).entries[i]?)
            = Option.map Item.link items.reverse[i]? := by
  intro cfg items
  have he : (build_feed cfg items).entries = (items.map entryOfItem).reverse := by
    unfold build_feed
    rw [entries_foldl items (initFeed cfg)]
    simp [initFeed]
  refine ⟨he, ?_, ?_⟩
  · rw [he, List.length_reverse, List.length_map]
  · intro i
    rw [he, ← List.map_reverse, List.getElem?_map]
    cases items.reverse[i]? with
    | none => rfl
    | some x => rfl

/-- Witness for the amended C8 with a duplicate link: one entry per item,
both entries carry the same identifier, and the order is the reverse of
extraction order. -/
theorem c8_feed_entries_witness :
    (build_feed cfgA itemsDup).entries = (itemsDup.map entryOfItem).reverse
    ∧ Option.map Entry.id ((build_feed cfgA itemsDup).entries[0]?)
        = Option.map Item.link itemsDup.reverse[0]?
    ∧ Option.map Entry.id ((build_feed cfgA itemsDup).entries[1]?)
        = Option.map Item.link itemsDup.reverse[1]? :=
  ⟨(c8_feed_entries cfgA itemsDup).1,
   (c8_feed_entries cfgA itemsDup).2.2 0,
   (c8_feed_entries cfgA itemsDup).2.2 1⟩

/-- C9: the whitespace normalizer is idempotent. -/
theorem c9_clean_idempotent : ∀ x : String, clean (clean x) = clean x := by
  intro x
  exact clean_idem_helper x

/-- Witness for C9 at a concrete string. -/
theorem c9_clean_idempotent_witness :
    clean (clean " a \t b ") = clean " a \t b " :=
  c9_clean_idempotent " a \t b "

/-- C10: when `scrape_items` raises, `build_rss` performs no filesystem
effect - the state is returned unchanged, so no directory is created and a
previously existing output file keeps its contents. -/
theorem c10_build_rss_atomic :
    ∀ (cfg : SiteConfig) (page : Except Unit Soup) (now : Timestamp)
      (out_dir : List String) (fs : FS) (e : ScrapeErr),
      scrape_items cfg page now = .error e →
      build_rss cfg page now out_dir fs = (.error e, fs) := by
  intro cfg page now out_dir fs e h
  unfold build_rss
  rw [h]

/-- Witness for C10: a failing fetch leaves an existing output file intact. -/
theorem c10_build_rss_atomic_witness :
    build_rss cfgA (.error ()) now0 ["docs", "rss"] fs0 = (.error .transport, fs0) :=
  c10_build_rss_atomic cfgA (.error ()) now0 ["docs", "rss"] fs0 .transport rfl

end RijekaRSS
